import Mathlib

set_option autoImplicit false

deriving instance DecidableEq for Except

namespace Faceit

/-!
Shallow embedding of the enrollment/recognition core of this repository
(`src/face-recognition.js`, class `FaceRecognizer`).

Modelling conventions:
* JS numbers are modelled as rationals (`ℚ`); none of the verified
  properties depend on floating-point rounding.
* The JS `Map` of enrolled faces is modelled as an insertion-ordered
  association list `List (String × FaceData)` with `Map.set` / `Map.delete`
  / `Map.has` semantics (`mapSet`, `mapDelete`, `mapHas`).
* `localStorage` plus `JSON.stringify`/`JSON.parse` are external browser
  builtins; they are abstracted as a storage value type `σ` together with
  an `encode : EnrolledMap → σ` and a `decode : σ → Option EnrolledMap`
  (`decode` returning `none` models `JSON.parse` throwing on corrupt data,
  which the source catches).
* The external `faceapi.FaceMatcher` is not part of this repository; it is
  modelled from the spec (see `findBestMatch`).
-/

/-- Label used by the matcher for a failed match, the string "unknown"
in the source. -/
def unknownLabel : String := "unknown"

/-- Message of the error thrown by `enrollFace` on invalid input
(`src/face-recognition.js` line 18). -/
def requiredMsg : String := "Face descriptor and label are required"

/-- Empty string, the only falsy label value in the JS truthiness guard. -/
def emptyString : String := ""

/-- Record stored per enrolled face (`src/face-recognition.js` lines 22–26):
`{descriptor, label, enrolledAt}`. Timestamps are opaque; modelled as `Nat`. -/
structure FaceData where
  descriptor : List ℚ
  label : String
  enrolledAt : Nat
  deriving DecidableEq

/-- The `enrolledFaces` JS `Map`, as an insertion-ordered association list. -/
abbrev EnrolledMap : Type := List (String × FaceData)

/-- One detection produced by the external detector; only the (optional)
descriptor is consumed by `recognizeFaces`. -/
structure Detection where
  descriptor : Option (List ℚ)
  deriving DecidableEq

/-- Result pushed by `recognizeFaces` (`src/face-recognition.js`
lines 77–88). -/
structure RecognitionResult where
  label : String
  distance : ℚ
  isMatch : Bool
  deriving DecidableEq

/-- Result of the matcher's best-match lookup: a label and a distance. -/
structure MatchResult where
  label : String
  distance : ℚ
  deriving DecidableEq

/-- State of a `FaceRecognizer` instance: the enrolled-face map, the
(nullable) face matcher, and the `localStorage` slot `enrolledFaces`
(abstract storage type `σ`; `none` = key absent). The matcher, when
present, is its list of (label, descriptor) entries. -/
structure FaceRecognizer (σ : Type) where
  enrolledFaces : EnrolledMap
  faceMatcher : Option (List (String × List ℚ))
  storage : Option σ
  deriving DecidableEq

/-- JS `Map.has`. -/
def mapHas (m : EnrolledMap) (k : String) : Bool :=
  m.any (fun p => p.1 == k)

/-- JS `Map.set`: replaces the value in place when the key is present
(keeping insertion order), appends otherwise. -/
def mapSet (m : EnrolledMap) (k : String) (v : FaceData) : EnrolledMap :=
  if mapHas m k then m.map (fun p => if p.1 == k then (k, v) else p)
  else m ++ [(k, v)]

/-- JS `Map.delete` (drops the entry with the given key). -/
def mapDelete (m : EnrolledMap) (k : String) : EnrolledMap :=
  m.filter (fun p => p.1 != k)

/-- JS `Map.get`. -/
def mapGet (m : EnrolledMap) (k : String) : Option FaceData :=
  (m.find? (fun p => p.1 == k)).map (fun p => p.2)

/-- JS `Map.keys` (insertion order). -/
def mapKeys (m : EnrolledMap) : List String :=
  m.map (fun p => p.1)

/-- Embeds `updateFaceMatcher` (`src/face-recognition.js` lines 97–118):
with no enrolled faces the matcher is set to `null`; otherwise it is rebuilt
from the current entries as (label, descriptor) pairs. The spec-modelled
matcher construction never fails, so the `catch` branch (which would also
set the matcher to `null`) is not reachable in the model. -/
def updateFaceMatcher {σ : Type} (s : FaceRecognizer σ) : FaceRecognizer σ :=
  if s.enrolledFaces.isEmpty then { s with faceMatcher := none }
  else
    { s with
      faceMatcher := some (s.enrolledFaces.map (fun p => (p.1, p.2.descriptor))) }

/-- Embeds `saveEnrolledFaces` (`src/face-recognition.js` lines 137–144):
writes the serialized map to the storage slot. -/
def saveEnrolledFaces {σ : Type} (encode : EnrolledMap → σ)
    (s : FaceRecognizer σ) : FaceRecognizer σ :=
  { s with storage := some (encode s.enrolledFaces) }

/-- Embeds `loadEnrolledFaces` (`src/face-recognition.js` lines 149–162):
an absent storage slot leaves the state alone; a decodable value replaces
the enrolled map and rebuilds the matcher; an undecodable (corrupt) value
takes the `catch` branch, which resets the enrolled map to empty and logs
a warning (the matcher field itself is not touched there, exactly as in
the source). -/
def loadEnrolledFaces {σ : Type} (decode : σ → Option EnrolledMap)
    (s : FaceRecognizer σ) : FaceRecognizer σ :=
  match s.storage with
  | none => s
  | some v =>
    match decode v with
    | some m => updateFaceMatcher { s with enrolledFaces := m }
    | none => { s with enrolledFaces := [] }

/-- Embeds `enrollFace` (`src/face-recognition.js` lines 16–34). The JS
guard `!faceDescriptor || !label` is truthiness on the descriptor reference
and on the label string: it throws exactly when the descriptor is
`null`/`undefined` (`none`) or the label is the empty string. Note an empty
but non-null descriptor array is truthy in JS and passes the guard.
`Array.from` has already produced the plain list held in the `Option`. -/
def enrollFace {σ : Type} (encode : EnrolledMap → σ) (s : FaceRecognizer σ)
    (faceDescriptor : Option (List ℚ)) (label : String) (now : Nat) :
    Except String (FaceRecognizer σ × Bool) :=
  match faceDescriptor with
  | none => .error requiredMsg
  | some d =>
    if label == emptyString then .error requiredMsg
    else
      let faceData : FaceData :=
        { descriptor := d, label := label, enrolledAt := now }
      .ok
        (saveEnrolledFaces encode
          (updateFaceMatcher
            { s with enrolledFaces := mapSet s.enrolledFaces label faceData }),
        true)

/-- Embeds `removeFace` (`src/face-recognition.js` lines 39–48): when the
label is present, deletes it, rebuilds the matcher, persists, and returns
`true`; otherwise returns `false` with the state untouched. -/
def removeFace {σ : Type} (encode : EnrolledMap → σ) (s : FaceRecognizer σ)
    (label : String) : FaceRecognizer σ × Bool :=
  if mapHas s.enrolledFaces label then
    (saveEnrolledFaces encode
      (updateFaceMatcher
        { s with enrolledFaces := mapDelete s.enrolledFaces label }),
    true)
  else (s, false)

/-- Embeds `clearAllFaces` (`src/face-recognition.js` lines 53–58). -/
def clearAllFaces {σ : Type} (encode : EnrolledMap → σ)
    (s : FaceRecognizer σ) : FaceRecognizer σ :=
  saveEnrolledFaces encode { s with enrolledFaces := [], faceMatcher := none }

/-- Embeds `getEnrolledFaces` (`src/face-recognition.js` lines 123–125). -/
def getEnrolledFaces {σ : Type} (s : FaceRecognizer σ) : List String :=
  mapKeys s.enrolledFaces

/-- Modelled from the spec: first step of the external
`faceapi.FaceMatcher.findBestMatch`, which is not part of this repository.
Scans the matcher's entries for the one at minimum distance from the query
(ties broken by first-encountered order, per the spec); returns `none` on
an empty entry list. The vector metric is the spec's opaque `dist`
parameter. -/
def bestEntry (dist : List ℚ → List ℚ → ℚ) (q : List ℚ) :
    List (String × List ℚ) → Option (String × ℚ)
  | [] => none
  | e :: es =>
    some (es.foldl
      (fun best p => if dist q p.2 < best.2 then (p.1, dist q p.2) else best)
      (e.1, dist q e.2))

/-- Modelled from the spec: the external `faceapi.FaceMatcher.findBestMatch`
(missing from this repository). Per the spec it computes the distance from
the query to every enrolled descriptor, selects the minimum, and returns
the matched label with that distance when the minimum does not exceed the
threshold, or the "unknown" sentinel with that minimum distance otherwise;
on an empty enrolled set it returns "unknown" with the maximum-distance
sentinel 1.0 without computing distances. -/
def findBestMatch (dist : List ℚ → List ℚ → ℚ)
    (entries : List (String × List ℚ)) (q : List ℚ) (threshold : ℚ) :
    MatchResult :=
  match bestEntry dist q entries with
  | none => { label := unknownLabel, distance := 1 }
  | some b =>
    if b.2 ≤ threshold then { label := b.1, distance := b.2 }
    else { label := unknownLabel, distance := b.2 }

/-- Embeds `recognizeFaces` (`src/face-recognition.js` lines 63–92): with a
`null` matcher or an empty detection list it returns `[]`; otherwise each
detection with a descriptor is answered by the matcher's best match, and
each detection without one by `{label:"unknown", distance:1.0,
isMatch:false}`. -/
def recognizeFaces {σ : Type} (dist : List ℚ → List ℚ → ℚ)
    (s : FaceRecognizer σ) (detections : List Detection)
    (confidenceThreshold : ℚ) : List RecognitionResult :=
  match s.faceMatcher with
  | none => []
  | some entries =>
    if detections.isEmpty then []
    else
      detections.map (fun detection =>
        match detection.descriptor with
        | some q =>
          let bestMatch := findBestMatch dist entries q confidenceThreshold
          { label := bestMatch.label, distance := bestMatch.distance,
            isMatch := bestMatch.label != unknownLabel }
        | none =>
          { label := unknownLabel, distance := 1, isMatch := false })

/-- State of a freshly constructed recognizer before `loadEnrolledFaces`
runs (`src/face-recognition.js` lines 7–11), with an empty storage slot. -/
def initRecognizer (σ : Type) : FaceRecognizer σ :=
  { enrolledFaces := [], faceMatcher := none, storage := none }

/-- One store mutation, for replaying operation sequences. -/
inductive StoreOp where
  | enroll (label : String) (d : List ℚ) (t : Nat)
  | remove (label : String)
  deriving DecidableEq

/-- Label an operation refers to. -/
def opLabel : StoreOp → String
  | .enroll l _ _ => l
  | .remove l => l

/-- Applies one operation to the recognizer state; a throwing `enrollFace`
leaves the state unchanged (the exception propagates before any mutation). -/
def applyOp {σ : Type} (encode : EnrolledMap → σ) (s : FaceRecognizer σ) :
    StoreOp → FaceRecognizer σ
  | .enroll label d t =>
    match enrollFace encode s (some d) label t with
    | .ok r => r.1
    | .error _ => s
  | .remove label => (removeFace encode s label).1

/-- Replays a sequence of operations from the initial empty store. -/
def replay {σ : Type} (encode : EnrolledMap → σ) (ops : List StoreOp) :
    FaceRecognizer σ :=
  ops.foldl (applyOp encode) (initRecognizer σ)

/-- One step of the specification fold for claim C6: tracks whether the
label `l` is expected to be enrolled after one more operation. -/
def lastStep (l : String) (acc : Bool) : StoreOp → Bool
  | .enroll label _ _ => if label = l then true else acc
  | .remove label => if label = l then false else acc

/-- Specification fold for claim C6: a label is expected to be enrolled
exactly when the last operation mentioning it is an enroll. -/
def lastIsEnroll (ops : List StoreOp) (l : String) : Bool :=
  ops.foldl (lastStep l) false

/-- Mutable JS arrays, for the aliasing claim C10: a heap maps array
references to their current contents. -/
def Heap : Type := Nat → List ℚ

/-- Mutation of the array behind reference `r` (the caller writing into
their descriptor array). -/
def heapWrite (h : Heap) (r : Nat) (v : List ℚ) : Heap :=
  fun x => if x = r then v else h x

/-- Embeds the `enrollFace` call boundary with explicit references: the
caller passes an (optional, possibly null) array reference, and
`Array.from(faceDescriptor)` (`src/face-recognition.js` line 23)
dereferences it at call time, so only the current contents enter the
stored `FaceData`. -/
def enrollFaceRef {σ : Type} (encode : EnrolledMap → σ) (s : FaceRecognizer σ)
    (h : Heap) (ref : Option Nat) (label : String) (now : Nat) :
    Except String (FaceRecognizer σ × Bool) :=
  enrollFace encode s (ref.map h) label now

/-- Concrete discrete metric, used only to instantiate the opaque `dist`
parameter of the matcher model on concrete inputs. -/
def discreteDist (a b : List ℚ) : ℚ :=
  if a = b then 0 else 1

/-- Identity serialization: a storage type together with encode/decode
functions satisfying the round-trip law, used to instantiate the abstract
persistence layer on concrete inputs. -/
def encId : EnrolledMap → EnrolledMap := fun m => m

/-! Basic lemmas about the embedded operations. -/

theorem enrolledFaces_updateFaceMatcher {σ : Type} (s : FaceRecognizer σ) :
    (updateFaceMatcher s).enrolledFaces = s.enrolledFaces := by
  unfold updateFaceMatcher
  split <;> rfl

theorem storage_updateFaceMatcher {σ : Type} (s : FaceRecognizer σ) :
    (updateFaceMatcher s).storage = s.storage := by
  unfold updateFaceMatcher
  split <;> rfl

theorem enrolledFaces_saveEnrolledFaces {σ : Type} (encode : EnrolledMap → σ)
    (s : FaceRecognizer σ) :
    (saveEnrolledFaces encode s).enrolledFaces = s.enrolledFaces := rfl

theorem faceMatcher_saveEnrolledFaces {σ : Type} (encode : EnrolledMap → σ)
    (s : FaceRecognizer σ) :
    (saveEnrolledFaces encode s).faceMatcher = s.faceMatcher := rfl

theorem storage_saveEnrolledFaces {σ : Type} (encode : EnrolledMap → σ)
    (s : FaceRecognizer σ) :
    (saveEnrolledFaces encode s).storage = some (encode s.enrolledFaces) := rfl

theorem mapHas_iff (m : EnrolledMap) (l : String) :
    mapHas m l = true ↔ ∃ p ∈ m, p.1 = l := by
  simp [mapHas]

theorem mem_mapKeys (m : EnrolledMap) (l : String) :
    l ∈ mapKeys m ↔ mapHas m l = true := by
  rw [mapHas_iff]
  unfold mapKeys
  rw [List.mem_map]

theorem mapHas_mapSet_self (m : EnrolledMap) (k : String) (v : FaceData) :
    mapHas (mapSet m k v) k = true := by
  unfold mapSet
  split
  case isTrue hk =>
    rw [mapHas_iff] at hk ⊢
    obtain ⟨p, hp, hpk⟩ := hk
    exact ⟨(k, v), List.mem_map.mpr ⟨p, hp, by simp [hpk]⟩, rfl⟩
  case isFalse hk =>
    rw [mapHas_iff]
    exact ⟨(k, v), List.mem_append.mpr (Or.inr (List.mem_singleton.mpr rfl)), rfl⟩

theorem mapHas_mapSet_ne (m : EnrolledMap) (k : String) (v : FaceData)
    (l : String) (hlk : l ≠ k) :
    mapHas (mapSet m k v) l = true ↔ mapHas m l = true := by
  unfold mapSet
  split
  case isTrue hk =>
    rw [mapHas_iff, mapHas_iff]
    constructor
    · rintro ⟨p, hp, hpl⟩
      obtain ⟨q, hq, rfl⟩ := List.mem_map.mp hp
      by_cases hqk : q.1 = k
      · simp [hqk] at hpl
        exact absurd hpl.symm hlk
      · refine ⟨q, hq, ?_⟩
        simpa [hqk] using hpl
    · rintro ⟨p, hp, hpl⟩
      by_cases hpk : p.1 = k
      · exact absurd (hpl.symm.trans hpk) hlk
      · refine ⟨_, List.mem_map.mpr ⟨p, hp, rfl⟩, ?_⟩
        simp [hpl, hlk]
  case isFalse hk =>
    rw [mapHas_iff, mapHas_iff]
    constructor
    · rintro ⟨p, hp, hpl⟩
      rcases List.mem_append.mp hp with h | h
      · exact ⟨p, h, hpl⟩
      · rw [List.mem_singleton.mp h] at hpl
        exact absurd hpl.symm hlk
    · rintro ⟨p, hp, hpl⟩
      exact ⟨p, List.mem_append.mpr (Or.inl hp), hpl⟩

theorem mapHas_mapDelete (m : EnrolledMap) (k l : String) :
    mapHas (mapDelete m k) l = true ↔ (mapHas m l = true ∧ l ≠ k) := by
  rw [mapHas_iff, mapHas_iff]
  unfold mapDelete
  constructor
  · rintro ⟨p, hp, hpl⟩
    rw [List.mem_filter] at hp
    obtain ⟨hpm, hpk⟩ := hp
    refine ⟨⟨p, hpm, hpl⟩, ?_⟩
    intro hlk
    rw [hlk] at hpl
    rw [hpl] at hpk
    simp at hpk
  · rintro ⟨⟨p, hp, hpl⟩, hlk⟩
    refine ⟨p, List.mem_filter.mpr ⟨hp, ?_⟩, hpl⟩
    simp [hpl]
    exact hlk

theorem find?_map_set (k : String) (v : FaceData) :
    ∀ m : EnrolledMap, mapHas m k = true →
      List.find? (fun p => p.1 == k)
        (m.map (fun p => if p.1 == k then (k, v) else p)) = some (k, v)
  | [], h => by simp [mapHas] at h
  | p :: m, h => by
    by_cases hpk : p.1 = k
    · simp [hpk]
    · have hb : (p.1 == k) = false := by simp [hpk]
      have h' : mapHas m k = true := by
        simp [mapHas, List.any_cons, hb] at h
        simpa [mapHas] using h
      simp only [List.map_cons, List.find?, hb, if_false, Bool.false_eq_true]
      exact find?_map_set k v m h'

theorem find?_append_single (k : String) (v : FaceData) :
    ∀ m : EnrolledMap, mapHas m k = false →
      List.find? (fun p => p.1 == k) (m ++ [(k, v)]) = some (k, v)
  | [], _ => by simp [List.find?]
  | p :: m, h => by
    have hparts : (p.1 == k) = false ∧ mapHas m k = false := by
      simpa [mapHas, List.any_cons] using h
    simp only [List.cons_append, List.find?, hparts.1]
    exact find?_append_single k v m hparts.2

theorem find?_mapSet (m : EnrolledMap) (k : String) (v : FaceData) :
    List.find? (fun p => p.1 == k) (mapSet m k v) = some (k, v) := by
  unfold mapSet
  split
  case isTrue hk => exact find?_map_set k v m hk
  case isFalse hk => exact find?_append_single k v m (by simpa using hk)

theorem mapGet_mapSet_self (m : EnrolledMap) (k : String) (v : FaceData) :
    mapGet (mapSet m k v) k = some v := by
  unfold mapGet
  rw [find?_mapSet]
  rfl

theorem mem_mapSet_self (m : EnrolledMap) (k : String) (v : FaceData) :
    (k, v) ∈ mapSet m k v :=
  List.mem_of_find?_eq_some (find?_mapSet m k v)

theorem mapSet_values (m : EnrolledMap) (k : String) (v : FaceData) :
    ∀ p ∈ mapSet m k v, p.1 = k → p.2 = v := by
  intro p hp hpk
  unfold mapSet at hp
  split at hp
  case isTrue hk =>
    obtain ⟨q, hq, rfl⟩ := List.mem_map.mp hp
    by_cases hqk : q.1 = k
    · simp [hqk]
    · simp [hqk] at hpk
  case isFalse hk =>
    rcases List.mem_append.mp hp with h | h
    · exact absurd ((mapHas_iff m k).mpr ⟨p, h, hpk⟩) (by simpa using hk)
    · rw [List.mem_singleton.mp h]

theorem mapSet_ne_nil (m : EnrolledMap) (k : String) (v : FaceData) :
    mapSet m k v ≠ [] := by
  unfold mapSet
  split
  case isTrue hk =>
    intro hnil
    rw [List.map_eq_nil_iff] at hnil
    subst hnil
    simp [mapHas] at hk
  case isFalse hk => simp

theorem mapKeys_mapSet_nodup (m : EnrolledMap) (k : String) (v : FaceData)
    (h : (mapKeys m).Nodup) : (mapKeys (mapSet m k v)).Nodup := by
  unfold mapSet
  split
  case isTrue hk =>
    have hkeys :
        mapKeys (m.map (fun p => if p.1 == k then (k, v) else p)) = mapKeys m := by
      unfold mapKeys
      rw [List.map_map]
      apply List.map_congr_left
      intro p _
      by_cases hpk : p.1 = k
      · simp [hpk]
      · simp [hpk]
    rwa [hkeys]
  case isFalse hk =>
    unfold mapKeys at *
    rw [List.map_append, List.nodup_append]
    refine ⟨h, by simp, ?_⟩
    intro a ha hak
    simp at hak
    subst hak
    apply hk
    rw [mapHas_iff]
    obtain ⟨p, hp, hpk⟩ := List.mem_map.mp ha
    exact ⟨p, hp, hpk⟩

theorem mapKeys_mapDelete_nodup (m : EnrolledMap) (k : String)
    (h : (mapKeys m).Nodup) : (mapKeys (mapDelete m k)).Nodup :=
  List.Nodup.sublist (List.Sublist.map _ (List.filter_sublist m)) h

theorem enrollFace_ok {σ : Type} (encode : EnrolledMap → σ) (s : FaceRecognizer σ)
    (d : List ℚ) (label : String) (now : Nat) (hl : label ≠ emptyString) :
    enrollFace encode s (some d) label now =
      .ok
        (saveEnrolledFaces encode
          (updateFaceMatcher
            { s with
              enrolledFaces := mapSet s.enrolledFaces label
                { descriptor := d, label := label, enrolledAt := now } }),
        true) := by
  simp only [enrollFace]
  rw [if_neg]
  simp [hl]

theorem enrollFace_err {σ : Type} (encode : EnrolledMap → σ) (s : FaceRecognizer σ)
    (d : List ℚ) (now : Nat) :
    enrollFace encode s (some d) emptyString now = .error requiredMsg := by
  simp [enrollFace]

theorem applyOp_enroll_enrolledFaces {σ : Type} (encode : EnrolledMap → σ)
    (s : FaceRecognizer σ) (label : String) (d : List ℚ) (t : Nat)
    (hl : label ≠ emptyString) :
    (applyOp encode s (.enroll label d t)).enrolledFaces =
      mapSet s.enrolledFaces label
        { descriptor := d, label := label, enrolledAt := t } := by
  simp only [applyOp]
  rw [enrollFace_ok encode s d label t hl]
  show (saveEnrolledFaces encode (updateFaceMatcher _)).enrolledFaces = _
  rw [enrolledFaces_saveEnrolledFaces, enrolledFaces_updateFaceMatcher]

theorem applyOp_remove_enrolledFaces {σ : Type} (encode : EnrolledMap → σ)
    (s : FaceRecognizer σ) (label : String) :
    (applyOp encode s (.remove label)).enrolledFaces =
      if mapHas s.enrolledFaces label then mapDelete s.enrolledFaces label
      else s.enrolledFaces := by
  simp only [applyOp, removeFace]
  split
  · show (saveEnrolledFaces encode (updateFaceMatcher _), true).1.enrolledFaces = _
    rw [enrolledFaces_saveEnrolledFaces, enrolledFaces_updateFaceMatcher]
  · rfl

theorem foldl_mapHas {σ : Type} (encode : EnrolledMap → σ) (l : String) :
    ∀ (ops : List StoreOp) (s : FaceRecognizer σ) (b : Bool),
      (∀ op ∈ ops, opLabel op ≠ emptyString) →
      (mapHas s.enrolledFaces l = true ↔ b = true) →
      (mapHas (ops.foldl (applyOp encode) s).enrolledFaces l = true ↔
        ops.foldl (lastStep l) b = true)
  | [], _, _, _, hb => by simpa using hb
  | op :: ops, s, b, hv, hb => by
    have hv' : ∀ o ∈ ops, opLabel o ≠ emptyString :=
      fun o ho => hv o (List.mem_cons_of_mem _ ho)
    rw [List.foldl_cons, List.foldl_cons]
    apply foldl_mapHas encode l ops _ _ hv'
    cases op with
    | enroll label d t =>
      have hl : label ≠ emptyString := hv _ (List.mem_cons_self _ _)
      rw [applyOp_enroll_enrolledFaces encode s label d t hl]
      by_cases hlk : label = l
      · subst hlk
        rw [show lastStep label b (.enroll label d t) = true from by
          simp [lastStep]]
        simp [mapHas_mapSet_self]
      · rw [show lastStep l b (.enroll label d t) = b from by
          simp [lastStep, hlk]]
        rw [mapHas_mapSet_ne _ _ _ _ (fun h => hlk h.symm)]
        exact hb
    | remove label =>
      rw [applyOp_remove_enrolledFaces]
      by_cases hlk : label = l
      · subst hlk
        rw [show lastStep label b (.remove label) = false from by simp [lastStep]]
        constructor
        · intro h
          by_cases hm : mapHas s.enrolledFaces label = true
          · rw [if_pos hm] at h
            obtain ⟨-, hne⟩ := (mapHas_mapDelete _ _ _).mp h
            exact absurd rfl hne
          · rw [if_neg hm] at h
            exact absurd h hm
        · intro h
          simp at h
      · rw [show lastStep l b (.remove label) = b from by simp [lastStep, hlk]]
        rw [← hb]
        by_cases hm : mapHas s.enrolledFaces label = true
        · rw [if_pos hm]
          rw [mapHas_mapDelete]
          constructor
          · exact fun h => h.1
          · exact fun h => ⟨h, fun hc => hlk hc.symm⟩
        · rw [if_neg hm]

theorem foldl_keys_nodup {σ : Type} (encode : EnrolledMap → σ) :
    ∀ (ops : List StoreOp) (s : FaceRecognizer σ),
      (mapKeys s.enrolledFaces).Nodup →
      (mapKeys ((ops.foldl (applyOp encode) s)).enrolledFaces).Nodup
  | [], _, h => h
  | op :: ops, s, h => by
    rw [List.foldl_cons]
    apply foldl_keys_nodup encode ops
    cases op with
    | enroll label d t =>
      by_cases hl : label = emptyString
      · have hid : applyOp encode s (.enroll label d t) = s := by
          simp only [applyOp]
          rw [hl, enrollFace_err]
        rwa [hid]
      · rw [applyOp_enroll_enrolledFaces encode s label d t hl]
        exact mapKeys_mapSet_nodup _ _ _ h
    | remove label =>
      rw [applyOp_remove_enrolledFaces]
      split
      · exact mapKeys_mapDelete_nodup _ _ h
      · exact h

/-! Concrete demo values used by witnesses and counterexamples. -/

def labelA : String := "A"

def labelAlice : String := "Alice"

def labelCarol : String := "Carol"

def fd1 : FaceData := { descriptor := [1], label := labelA, enrolledAt := 0 }

def fd2 : FaceData := { descriptor := [2], label := labelA, enrolledAt := 1 }

/-- Recognizer state with one face enrolled under label "A". -/
def demoState : FaceRecognizer EnrolledMap :=
  { enrolledFaces := [(labelA, fd1)], faceMatcher := some [(labelA, [1])],
    storage := some [(labelA, fd1)] }

/-- Recognizer state after re-enrolling label "A" with descriptor `[2]`. -/
def demoState2 : FaceRecognizer EnrolledMap :=
  { enrolledFaces := [(labelA, fd2)], faceMatcher := some [(labelA, [2])],
    storage := some [(labelA, fd2)] }

def labelBob : String := "Bob"

/-- Record stored when enrolling "Alice" with an empty descriptor. -/
def fdAliceEmpty : FaceData :=
  { descriptor := [], label := labelAlice, enrolledAt := 0 }

/-- State reached by enrolling "Alice" with an empty (non-null) descriptor. -/
def demoStateEmptyDescr : FaceRecognizer EnrolledMap :=
  { enrolledFaces := [(labelAlice, fdAliceEmpty)],
    faceMatcher := some [(labelAlice, [])],
    storage := some [(labelAlice, fdAliceEmpty)] }

/-- Demo operation sequence: enroll Alice, enroll Bob, remove Alice. -/
def demoOps : List StoreOp :=
  [.enroll labelAlice [1] 0, .enroll labelBob [2] 1, .remove labelAlice]

/-! Claim theorems. -/

/-- Claim C1, amended: provided the face matcher is non-null (at least one
face is enrolled), `recognizeFaces` returns one `RecognitionResult` per
detection, in order: a detection with a descriptor gets the matcher's best
match for it, and a detection without one gets
`{label := "unknown", distance := 1, isMatch := false}`. (As stated the
claim fails when the matcher is null: `recognizeFaces` then returns the
empty list, see the counterexample.) -/
theorem recognizeFaces_with_matcher {σ : Type} (dist : List ℚ → List ℚ → ℚ)
    (s : FaceRecognizer σ) (entries : List (String × List ℚ))
    (h : s.faceMatcher = some entries) (detections : List Detection) (T : ℚ) :
    recognizeFaces dist s detections T =
      detections.map (fun detection =>
        match detection.descriptor with
        | some q =>
          let bestMatch := findBestMatch dist entries q T
          { label := bestMatch.label, distance := bestMatch.distance,
            isMatch := bestMatch.label != unknownLabel }
        | none => { label := unknownLabel, distance := 1, isMatch := false })
    ∧ (recognizeFaces dist s detections T).length = detections.length := by
  have hmain : recognizeFaces dist s detections T =
      detections.map (fun detection =>
        match detection.descriptor with
        | some q =>
          let bestMatch := findBestMatch dist entries q T
          { label := bestMatch.label, distance := bestMatch.distance,
            isMatch := bestMatch.label != unknownLabel }
        | none => { label := unknownLabel, distance := 1, isMatch := false }) := by
    simp only [recognizeFaces, h]
    by_cases hd : detections.isEmpty
    · rw [if_pos hd, List.isEmpty_iff.mp hd]
      rfl
    · rw [if_neg hd]
  exact ⟨hmain, by rw [hmain, List.length_map]⟩

/-- Witness for C1's amended theorem on a concrete enrolled state and a
two-detection list (one descriptor present, one absent). -/
theorem recognizeFaces_with_matcher_witness :
    (recognizeFaces discreteDist demoState
      [{ descriptor := some [1] }, { descriptor := none }] 1).length = 2 :=
  (recognizeFaces_with_matcher discreteDist demoState [(labelA, [1])] (by decide)
    [{ descriptor := some [1] }, { descriptor := none }] 1).2

/-- Counterexample to C1 as stated: with an empty store the matcher is
null and `recognizeFaces` on one descriptor-less detection returns `[]`,
not a one-element "unknown" result list. -/
theorem recognizeFaces_counterexample :
    recognizeFaces discreteDist (initRecognizer EnrolledMap)
      [{ descriptor := none }] 1 = []
    ∧ (recognizeFaces discreteDist (initRecognizer EnrolledMap)
        [{ descriptor := none }] 1).length ≠
      ([{ descriptor := none }] : List Detection).length :=
  ⟨by decide, by decide⟩

/-- Claim C2, amended: when the store of enrolled faces is empty the face
matcher is set to null and `recognizeFaces` returns the empty result list
(computing no distances), for every detection list and threshold — rather
than a per-query "unknown" answer; the spec-modelled best-match lookup on
an empty enrolled list does return the "unknown" sentinel with
distance 1.0 for every query and threshold. -/
theorem emptyStore_recognizeFaces {σ : Type} (dist : List ℚ → List ℚ → ℚ)
    (s : FaceRecognizer σ) (h : s.enrolledFaces = []) :
    (updateFaceMatcher s).faceMatcher = none
    ∧ (∀ detections T, recognizeFaces dist (updateFaceMatcher s) detections T = [])
    ∧ (∀ q T, findBestMatch dist [] q T =
        { label := unknownLabel, distance := 1 }) := by
  have hm : (updateFaceMatcher s).faceMatcher = none := by
    unfold updateFaceMatcher
    rw [if_pos]
    rw [h]
    rfl
  refine ⟨hm, fun detections T => ?_, fun q T => rfl⟩
  simp only [recognizeFaces, hm]

/-- Witness for C2's amended theorem at the initial empty state. -/
theorem emptyStore_recognizeFaces_witness :
    recognizeFaces discreteDist (updateFaceMatcher (initRecognizer EnrolledMap))
      [{ descriptor := some [3] }] 1 = [] :=
  (emptyStore_recognizeFaces discreteDist (initRecognizer EnrolledMap)
    (by decide)).2.1 [{ descriptor := some [3] }] 1

/-- Counterexample to C2 as stated: with an empty store, recognition of a
query descriptor returns nothing at all (the empty list), not an
"unknown" answer for the query. -/
theorem emptyStore_recognizeFaces_counterexample :
    recognizeFaces discreteDist (updateFaceMatcher (initRecognizer EnrolledMap))
      [{ descriptor := some [0] }] 1 = []
    ∧ recognizeFaces discreteDist (updateFaceMatcher (initRecognizer EnrolledMap))
        [{ descriptor := some [0] }] 1 ≠
      [{ label := unknownLabel, distance := 1, isMatch := false }] :=
  ⟨by decide, by decide⟩

theorem findBestMatch_mono (dist : List ℚ → List ℚ → ℚ)
    (entries : List (String × List ℚ)) (q : List ℚ) (T Tp : ℚ)
    (hTT : T ≤ Tp) (L : String) (Δ : ℚ)
    (h : findBestMatch dist entries q T = { label := L, distance := Δ })
    (hn : L ≠ unknownLabel) :
    findBestMatch dist entries q Tp = { label := L, distance := Δ } := by
  cases hbe : bestEntry dist q entries with
  | none =>
    simp only [findBestMatch, hbe] at h
    cases h
    exact absurd rfl hn
  | some b =>
    simp only [findBestMatch, hbe] at h ⊢
    by_cases hle : b.2 ≤ T
    · rw [if_pos hle] at h
      cases h
      rw [if_pos (le_trans hle hTT)]
    · rw [if_neg hle] at h
      cases h
      exact absurd rfl hn

/-- Claim C3: recognition through the (spec-modelled) matcher is monotonic
in the threshold: if `recognizeFaces` matches a query descriptor `d` at
threshold `T` (`isMatch = true` with label `L` and distance `Δ`), then at
any larger threshold `Tp` it matches with the same label (and distance). -/
theorem recognizeFaces_threshold_mono {σ : Type} (dist : List ℚ → List ℚ → ℚ)
    (s : FaceRecognizer σ) (d : List ℚ) (T Tp : ℚ) (L : String) (Δ : ℚ)
    (hT : T < Tp)
    (h : recognizeFaces dist s [{ descriptor := some d }] T =
      [{ label := L, distance := Δ, isMatch := true }]) :
    recognizeFaces dist s [{ descriptor := some d }] Tp =
      [{ label := L, distance := Δ, isMatch := true }] := by
  cases hm : s.faceMatcher with
  | none =>
    rw [show recognizeFaces dist s [{ descriptor := some d }] T = [] from by
      simp only [recognizeFaces, hm]] at h
    exact absurd h (by simp)
  | some entries =>
    have hrec : ∀ T0 : ℚ, recognizeFaces dist s [{ descriptor := some d }] T0 =
        [{ label := (findBestMatch dist entries d T0).label,
           distance := (findBestMatch dist entries d T0).distance,
           isMatch := (findBestMatch dist entries d T0).label != unknownLabel }] := by
      intro T0
      simp only [recognizeFaces, hm]
      rfl
    rw [hrec T] at h
    simp only [List.cons.injEq, and_true, RecognitionResult.mk.injEq] at h
    obtain ⟨hL, hΔ, hmatch⟩ := h
    have hn : L ≠ unknownLabel := by
      rw [hL] at hmatch
      exact bne_iff_ne.mp hmatch
    have hfb : findBestMatch dist entries d T = { label := L, distance := Δ } := by
      rw [← hL, ← hΔ]
    have hmono := findBestMatch_mono dist entries d T Tp (le_of_lt hT) L Δ hfb hn
    rw [hrec Tp, hmono]
    simp [hn]

/-- Witness for C3 on a concrete enrolled state: a match at threshold 0 is
still a match, with the same label and distance, at threshold 1. -/
theorem recognizeFaces_threshold_mono_witness :
    recognizeFaces discreteDist demoState [{ descriptor := some [1] }] 1 =
      [{ label := labelA, distance := 0, isMatch := true }] :=
  recognizeFaces_threshold_mono discreteDist demoState [1] 0 1 labelA 0
    (by decide) (by decide)

/-- Claim C4, amended: `enrollFace` throws the invalid-input error exactly
when the descriptor is null/absent or the label is the empty string; an
empty but non-null descriptor array is truthy in JS, so it is accepted
(see the counterexample). On failure the error is thrown to the caller
before any mutation, so the enrolled set, the matcher and the persisted
state are unchanged. -/
theorem enrollFace_error_iff {σ : Type} (encode : EnrolledMap → σ)
    (s : FaceRecognizer σ) (faceDescriptor : Option (List ℚ))
    (label : String) (now : Nat) :
    enrollFace encode s faceDescriptor label now = .error requiredMsg ↔
      (faceDescriptor = none ∨ label = emptyString) := by
  cases faceDescriptor with
  | none => simp [enrollFace]
  | some d =>
    by_cases hl : label = emptyString
    · subst hl
      simp [enrollFace_err]
    · rw [enrollFace_ok encode s d label now hl]
      simp [hl]

/-- Counterexample to C4 as stated: enrolling an empty (but non-null)
descriptor with a non-empty label succeeds — the JS truthiness guard does
not reject an empty descriptor array. -/
theorem enrollFace_empty_descriptor_counterexample :
    enrollFace encId (initRecognizer EnrolledMap) (some []) labelAlice 0 =
      .ok (demoStateEmptyDescr, true) := by
  decide

theorem enroll_post {σ : Type} (encode : EnrolledMap → σ) (s : FaceRecognizer σ)
    (d : List ℚ) (label : String) (t : Nat) (hl : label ≠ emptyString)
    (s1 : FaceRecognizer σ) (b1 : Bool)
    (h : enrollFace encode s (some d) label t = .ok (s1, b1)) :
    s1.enrolledFaces =
      mapSet s.enrolledFaces label
        { descriptor := d, label := label, enrolledAt := t }
    ∧ s1.faceMatcher =
        some (s1.enrolledFaces.map (fun p => (p.1, p.2.descriptor)))
    ∧ s1.storage = some (encode s1.enrolledFaces) := by
  rw [enrollFace_ok encode s d label t hl] at h
  cases h
  refine ⟨?_, ?_, ?_⟩
  · rw [enrolledFaces_saveEnrolledFaces, enrolledFaces_updateFaceMatcher]
  · rw [faceMatcher_saveEnrolledFaces, enrolledFaces_saveEnrolledFaces,
      enrolledFaces_updateFaceMatcher]
    unfold updateFaceMatcher
    rw [if_neg]
    simp [List.isEmpty_iff, mapSet_ne_nil]
  · rw [storage_saveEnrolledFaces, enrolledFaces_updateFaceMatcher,
      enrolledFaces_saveEnrolledFaces, enrolledFaces_updateFaceMatcher]

/-- Claim C5: first, after replaying any sequence of enroll/remove
operations from the empty store, the enrolled map holds at most one entry
per label (its key list has no duplicate); second, enrolling a second
descriptor `d2` under an already-enrolled label overwrites that entry: the
stored record for the label is the new one, the rebuilt matcher contains
the new `(label, d2)` entry, and every matcher entry for that label
carries `d2` — so the old descriptor is no longer stored or matched under
that label (unless it equals the new one). -/
theorem enroll_overwrite_unique {σ : Type} :
    (∀ (encode : EnrolledMap → σ) (ops : List StoreOp),
      (mapKeys (replay encode ops).enrolledFaces).Nodup)
    ∧ (∀ (encode : EnrolledMap → σ) (s : FaceRecognizer σ) (d1 d2 : List ℚ)
        (label : String) (t1 t2 : Nat) (s1 s2 : FaceRecognizer σ) (b1 b2 : Bool),
        enrollFace encode s (some d1) label t1 = .ok (s1, b1) →
        enrollFace encode s1 (some d2) label t2 = .ok (s2, b2) →
        mapGet s2.enrolledFaces label =
          some { descriptor := d2, label := label, enrolledAt := t2 }
        ∧ ∃ entries, s2.faceMatcher = some entries
            ∧ (label, d2) ∈ entries
            ∧ ∀ d, (label, d) ∈ entries → d = d2) := by
  constructor
  · intro encode ops
    unfold replay
    exact foldl_keys_nodup encode ops (initRecognizer σ)
      (by simp [initRecognizer, mapKeys])
  · intro encode s d1 d2 label t1 t2 s1 s2 b1 b2 h1 h2
    have hl : label ≠ emptyString := by
      intro he
      rw [he, enrollFace_err] at h1
      simp at h1
    obtain ⟨he2, hm2, -⟩ := enroll_post encode s1 d2 label t2 hl s2 b2 h2
    constructor
    · rw [he2]
      exact mapGet_mapSet_self _ _ _
    · refine ⟨s2.enrolledFaces.map (fun p => (p.1, p.2.descriptor)), hm2, ?_, ?_⟩
      · rw [he2]
        exact List.mem_map.mpr
          ⟨(label, { descriptor := d2, label := label, enrolledAt := t2 }),
            mem_mapSet_self _ _ _, rfl⟩
      · intro d hd
        rw [he2] at hd
        obtain ⟨p, hp, hpe⟩ := List.mem_map.mp hd
        injection hpe with hp1 hp2
        have hpv := mapSet_values _ _ _ p hp hp1
        rw [← hp2, hpv]

/-- Witness for C5's overwrite clause: enrolling "A" with `[1]` and then
with `[2]` leaves `[2]`'s record stored under "A". -/
theorem enroll_overwrite_unique_witness :
    mapGet demoState2.enrolledFaces labelA = some fd2 :=
  ((enroll_overwrite_unique (σ := EnrolledMap)).2 encId
    (initRecognizer EnrolledMap) [1] [2] labelA 0 1 demoState demoState2
    true true (by decide) (by decide)).1

/-- Claim C6: after replaying any sequence of enroll/remove operations
(with non-empty labels) from the initially empty store, a label appears in
the list returned by `getEnrolledFaces` exactly when the last operation in
the sequence mentioning that label is an enroll. -/
theorem replay_list_lastEnroll {σ : Type} (encode : EnrolledMap → σ)
    (ops : List StoreOp) (hv : ∀ op ∈ ops, opLabel op ≠ emptyString)
    (l : String) :
    l ∈ getEnrolledFaces (replay encode ops) ↔ lastIsEnroll ops l = true := by
  unfold getEnrolledFaces replay lastIsEnroll
  rw [mem_mapKeys]
  exact foldl_mapHas encode l ops (initRecognizer σ) false hv
    (by simp [initRecognizer, mapHas])

/-- Witness for C6 on a concrete sequence (enroll Alice, enroll Bob,
remove Alice): Bob is listed, Alice is not. -/
theorem replay_list_lastEnroll_witness :
    labelBob ∈ getEnrolledFaces (replay encId demoOps)
    ∧ ¬ labelAlice ∈ getEnrolledFaces (replay encId demoOps) := by
  constructor
  · exact (replay_list_lastEnroll encId demoOps (by decide) labelBob).mpr
      (by decide)
  · intro h
    exact absurd
      ((replay_list_lastEnroll encId demoOps (by decide) labelAlice).mp h)
      (by decide)

/-- Claim C7: `removeFace` on an absent label returns `false` and leaves
the whole state — enrolled faces, matcher and persisted storage slot —
untouched (no persistence write happens); on a present label it returns
`true`, deletes that entry (the label is no longer present) and persists
the updated map. -/
theorem removeFace_spec {σ : Type} (encode : EnrolledMap → σ)
    (s : FaceRecognizer σ) (label : String) :
    (mapHas s.enrolledFaces label = false →
      removeFace encode s label = (s, false))
    ∧ (mapHas s.enrolledFaces label = true →
        (removeFace encode s label).2 = true
        ∧ (removeFace encode s label).1.enrolledFaces =
            mapDelete s.enrolledFaces label
        ∧ mapHas (removeFace encode s label).1.enrolledFaces label = false
        ∧ (removeFace encode s label).1.storage =
            some (encode (mapDelete s.enrolledFaces label))) := by
  constructor
  · intro h
    unfold removeFace
    rw [if_neg]
    simp [h]
  · intro h
    have hr : removeFace encode s label =
        (saveEnrolledFaces encode
          (updateFaceMatcher
            { s with enrolledFaces := mapDelete s.enrolledFaces label }),
        true) := by
      unfold removeFace
      rw [if_pos h]
    rw [hr]
    refine ⟨rfl, ?_, ?_, ?_⟩
    · rw [enrolledFaces_saveEnrolledFaces, enrolledFaces_updateFaceMatcher]
    · rw [enrolledFaces_saveEnrolledFaces, enrolledFaces_updateFaceMatcher]
      cases hx : mapHas (mapDelete s.enrolledFaces label) label
      · rfl
      · obtain ⟨-, hne⟩ := (mapHas_mapDelete s.enrolledFaces label label).mp hx
        exact absurd rfl hne
    · rw [storage_saveEnrolledFaces, enrolledFaces_updateFaceMatcher]

/-- Witness for C7: removing never-enrolled "Carol" from a one-face state
returns false with the state unchanged, and removing the enrolled "A"
returns true. -/
theorem removeFace_spec_witness :
    removeFace encId demoState labelCarol = (demoState, false)
    ∧ (removeFace encId demoState labelA).2 = true :=
  ⟨(removeFace_spec encId demoState labelCarol).1 (by decide),
   ((removeFace_spec encId demoState labelA).2 (by decide)).1⟩

/-- Claim C8: persistence round-trip — `saveEnrolledFaces` followed by
`loadEnrolledFaces` on a freshly constructed recognizer (empty map, null
matcher) holding the saved storage slot reproduces the saved enrolled map
exactly: the same label list and, per label, the identical descriptor
record. The pair (`encode`, `decode`) abstracts the external
`JSON.stringify`/`JSON.parse`, assumed to satisfy the round-trip law. -/
theorem save_load_roundTrip {σ : Type} (encode : EnrolledMap → σ)
    (decode : σ → Option EnrolledMap)
    (hrt : ∀ m : EnrolledMap, decode (encode m) = some m)
    (s : FaceRecognizer σ) :
    (loadEnrolledFaces decode
      { enrolledFaces := [], faceMatcher := none,
        storage := (saveEnrolledFaces encode s).storage }).enrolledFaces =
      s.enrolledFaces
    ∧ getEnrolledFaces (loadEnrolledFaces decode
        { enrolledFaces := [], faceMatcher := none,
          storage := (saveEnrolledFaces encode s).storage }) =
      getEnrolledFaces s := by
  have h1 : (loadEnrolledFaces decode
      { enrolledFaces := [], faceMatcher := none,
        storage := (saveEnrolledFaces encode s).storage }).enrolledFaces =
      s.enrolledFaces := by
    simp only [loadEnrolledFaces, storage_saveEnrolledFaces, hrt]
    rw [enrolledFaces_updateFaceMatcher]
  exact ⟨h1, by unfold getEnrolledFaces; rw [h1]⟩

/-- Witness for C8 with the identity serialization on a concrete state. -/
theorem save_load_roundTrip_witness :
    (loadEnrolledFaces (fun m => some m)
      { enrolledFaces := [], faceMatcher := none,
        storage := (saveEnrolledFaces encId demoState).storage }).enrolledFaces =
      demoState.enrolledFaces :=
  (save_load_roundTrip encId (fun m => some m) (fun _ => rfl) demoState).1

/-- Claim C9: `loadEnrolledFaces` on a storage slot whose value does not
decode (corrupt persisted data) fails soft: it resets the enrolled map to
empty, leaves the rest of the state as it was, and returns normally for
every such stored value — being a total function it propagates no error
to the caller. (The console warning it logs is an I/O effect outside the
model.) -/
theorem load_corrupt_resets {σ : Type} (decode : σ → Option EnrolledMap)
    (s : FaceRecognizer σ) (v : σ) (hv : s.storage = some v)
    (hbad : decode v = none) :
    loadEnrolledFaces decode s = { s with enrolledFaces := [] }
    ∧ getEnrolledFaces (loadEnrolledFaces decode s) = [] := by
  have h1 : loadEnrolledFaces decode s = { s with enrolledFaces := [] } := by
    simp only [loadEnrolledFaces, hv, hbad]
  refine ⟨h1, ?_⟩
  rw [h1]
  rfl

/-- Recognizer state over a storage type whose values never decode. -/
def corruptState : FaceRecognizer Nat :=
  { enrolledFaces := [(labelA, fd1)], faceMatcher := some [(labelA, [1])],
    storage := some 7 }

/-- Witness for C9: an undecodable stored value resets the enrolled map. -/
theorem load_corrupt_resets_witness :
    loadEnrolledFaces (fun _ => none) corruptState =
      { corruptState with enrolledFaces := [] } :=
  (load_corrupt_resets (fun _ => none) corruptState 7 (by decide) rfl).1

/-- Claim C10: `enrollFace` stores an independent copy of the caller's
descriptor: `Array.from` dereferences the passed array reference at call
time, so the stored record, the rebuilt matcher entry and the persisted
map all hold the value `h r` the array had at enrollment; a later mutation
of the caller's array (a heap write of `v` at `r`) changes what the
caller's reference reads but none of the stored values, which contain no
reference into the heap. -/
theorem enrollFaceRef_copies {σ : Type} (encode : EnrolledMap → σ)
    (s : FaceRecognizer σ) (h : Heap) (r : Nat) (label : String) (now : Nat)
    (v : List ℚ) (s1 : FaceRecognizer σ) (b : Bool)
    (hok : enrollFaceRef encode s h (some r) label now = .ok (s1, b)) :
    mapGet s1.enrolledFaces label =
      some { descriptor := h r, label := label, enrolledAt := now }
    ∧ (∃ entries, s1.faceMatcher = some entries ∧ (label, h r) ∈ entries)
    ∧ s1.storage = some (encode (mapSet s.enrolledFaces label
        { descriptor := h r, label := label, enrolledAt := now }))
    ∧ heapWrite h r v r = v := by
  unfold enrollFaceRef at hok
  simp only [Option.map_some'] at hok
  have hl : label ≠ emptyString := by
    intro he
    rw [he, enrollFace_err] at hok
    simp at hok
  obtain ⟨he1, hm1, hs1⟩ := enroll_post encode s (h r) label now hl s1 b hok
  refine ⟨?_, ?_, ?_, ?_⟩
  · rw [he1]
    exact mapGet_mapSet_self _ _ _
  · refine ⟨s1.enrolledFaces.map (fun p => (p.1, p.2.descriptor)), hm1, ?_⟩
    rw [he1]
    exact List.mem_map.mpr ⟨(label, _), mem_mapSet_self _ _ _, rfl⟩
  · rw [hs1, he1]
  · unfold heapWrite
    simp

/-- Heap whose every reference holds the array `[5]`. -/
def demoHeap : Heap := fun _ => [5]

def fd5 : FaceData := { descriptor := [5], label := labelA, enrolledAt := 0 }

/-- State reached by enrolling label "A" from a reference into `demoHeap`. -/
def demoState5 : FaceRecognizer EnrolledMap :=
  { enrolledFaces := [(labelA, fd5)], faceMatcher := some [(labelA, [5])],
    storage := some [(labelA, fd5)] }

/-- Witness for C10: the stored record keeps the enrollment-time value
`[5]` while the caller's mutated reference reads `[9]`. -/
theorem enrollFaceRef_copies_witness :
    mapGet demoState5.enrolledFaces labelA = some fd5
    ∧ heapWrite demoHeap 0 [9] 0 = [9] :=
  ⟨(enrollFaceRef_copies encId (initRecognizer EnrolledMap) demoHeap 0 labelA
      0 [9] demoState5 true (by decide)).1,
   (enrollFaceRef_copies encId (initRecognizer EnrolledMap) demoHeap 0 labelA
      0 [9] demoState5 true (by decide)).2.2.2⟩

end Faceit
